import Mathlib

/-!
Shallow embedding of the library-management backend (src/main.py, src/schemas.py).

The backend stores three MongoDB collections — book, member, loan — and exposes
a borrow/return workflow, a lazy overdue sweep inside the loan-listing query,
a member-deletion guard, and a read-only stats aggregation.  Collections are
modelled as association lists from document identifier to document; `find_one`
and `update_one` act on the first entry whose key matches, mirroring MongoDB
single-document operations (MongoDB enforces unique `_id`, so states of
interest have no duplicate keys).  Timestamps are integers; `timedelta(days=d)`
is modelled as adding `d` to the current time, so one time unit is one day.
-/

namespace Library

/-- Document identifiers are opaque strings, as in the source (stringified
ObjectIds). -/
abbrev Id := String

/-- Timestamps (UTC datetimes in the source) as integers; a loan duration of
`d` days advances the clock by `d`. -/
abbrev Time := Int

/-- A hexadecimal digit, as accepted by `bson.ObjectId`. -/
def isHexChar (c : Char) : Bool :=
  c.isDigit || (c ≥ 'a' && c ≤ 'f') || (c ≥ 'A' && c ≤ 'F')

/-- `ObjectId.is_valid` for a string input: exactly 24 hexadecimal characters
(src/main.py uses it on every path parameter and borrow-request id). -/
def isValidObjectId (s : Id) : Bool :=
  s.length == 24 && s.data.all isHexChar

/-- Book document (schemas.py `Book`); `updated_at` is stamped by mutations in
src/main.py. -/
structure Book where
  title : String
  author : String
  isbn : String
  category : Option String
  description : Option String
  total_copies : Int
  copies_available : Int
  tags : List String
  updated_at : Option Time
deriving Repr, DecidableEq

/-- Member document (schemas.py `Member`).  `is_active` is `Option Bool`
because a stored document may lack the field; src/main.py line 232 reads it
with `member.get("is_active", True)`. -/
structure Member where
  name : String
  email : String
  phone : Option String
  address : Option String
  is_active : Option Bool
deriving Repr, DecidableEq

/-- Loan document (schemas.py `Loan`); `status` is a string field whose
intended values are "borrowed", "overdue", "returned". -/
structure Loan where
  member_id : Id
  book_id : Id
  borrowed_at : Time
  due_at : Time
  returned_at : Option Time
  status : String
  updated_at : Option Time
deriving Repr, DecidableEq

/-- The document store: the three collections of src/main.py, each an
association list from `_id` to document. -/
structure LibState where
  books : List (Id × Book)
  members : List (Id × Member)
  loans : List (Id × Loan)
deriving Repr, DecidableEq

/-- `find_one({"_id": i})`: the first document whose key matches. -/
def findDoc (coll : List (Id × α)) (i : Id) : Option α :=
  (coll.find? (fun p => p.1 = i)).map Prod.snd

/-- `update_one({"_id": i}, f)`: apply `f` to the first document whose key
matches, leaving everything else untouched. -/
def updateDoc (coll : List (Id × α)) (i : Id) (f : α → α) : List (Id × α) :=
  match coll with
  | [] => []
  | (j, a) :: rest => if j = i then (j, f a) :: rest else (j, a) :: updateDoc rest i f

/-- `delete_one({"_id": i})`: remove the first document whose key matches. -/
def eraseDoc (coll : List (Id × α)) (i : Id) : List (Id × α) :=
  match coll with
  | [] => []
  | (j, a) :: rest => if j = i then rest else (j, a) :: eraseDoc rest i

/-- Business-rule failures surfaced as HTTPExceptions in src/main.py. -/
inductive ApiError where
  /-- 400: malformed ObjectId in a path parameter or request body. -/
  | invalidId
  /-- 400 "Member not found or inactive" (borrow). -/
  | invalidMember
  /-- 404 "Book not found" (borrow). -/
  | bookNotFound
  /-- 400 "No copies available" (borrow). -/
  | outOfStock
  /-- 404 "Loan not found" (return). -/
  | loanNotFound
  /-- 404 "Member not found" (delete). -/
  | memberNotFound
  /-- 400 "Member has active loans" (delete). -/
  | hasActiveLoans
deriving Repr, DecidableEq

/-- The bound `1 ≤ days ≤ 60` that the `BorrowRequest` pydantic model
(src/main.py line 78, `Field(14, ge=1, le=60)`) enforces before
`borrow_book` runs. -/
def validBorrowDays (days : Int) : Bool :=
  1 ≤ days && days ≤ 60

/-- The loan document created by `borrow_book`: `borrowed_at = now`,
`due_at = now + days`, status "borrowed" (src/main.py lines 241-248). -/
def mkLoan (member_id book_id : Id) (now : Time) (days : Int) : Loan :=
  { member_id := member_id
    book_id := book_id
    borrowed_at := now
    due_at := now + days
    returned_at := none
    status := "borrowed"
    updated_at := none }

/-- The book update performed by `borrow_book`:
`$inc copies_available by -1`, stamp `updated_at` (src/main.py line 250). -/
def decAvailable (now : Time) (b : Book) : Book :=
  { b with copies_available := b.copies_available - 1, updated_at := some now }

/-- The book update performed by `return_book`:
`$inc copies_available by 1`, stamp `updated_at` (src/main.py line 271). -/
def incAvailable (now : Time) (b : Book) : Book :=
  { b with copies_available := b.copies_available + 1, updated_at := some now }

/-- The loan update performed by `return_book`: status "returned",
`returned_at = now`, stamp `updated_at` (src/main.py lines 266-269). -/
def markReturned (now : Time) (l : Loan) : Loan :=
  { l with status := "returned", returned_at := some now, updated_at := some now }

/-- `POST /api/loans/borrow` (src/main.py lines 226-252).  Checks in source
order: ObjectId validity of both ids; member exists and
`member.get("is_active", True)`; book exists; `copies_available > 0`.  Then
inserts the loan record (the store assigns `newLoanId`), decrements the
book's available count, and re-fetches the inserted loan to return it. -/
def borrow_book (s : LibState) (member_id book_id : Id) (days : Int) (now : Time)
    (newLoanId : Id) : Except ApiError (Id × Loan) × LibState :=
  if !(isValidObjectId member_id && isValidObjectId book_id) then
    (.error .invalidId, s)
  else
    match findDoc s.members member_id with
    | none => (.error .invalidMember, s)
    | some m =>
      if !(m.is_active.getD true) then (.error .invalidMember, s)
      else
        match findDoc s.books book_id with
        | none => (.error .bookNotFound, s)
        | some b =>
          if b.copies_available ≤ 0 then (.error .outOfStock, s)
          else
            let s2 : LibState :=
              { s with
                loans := s.loans ++ [(newLoanId, mkLoan member_id book_id now days)]
                books := updateDoc s.books book_id (decAvailable now) }
            match findDoc s2.loans newLoanId with
            | some l => (.ok (newLoanId, l), s2)
            | none => (.error .loanNotFound, s2)

/-- `POST /api/loans/{loan_id}/return` (src/main.py lines 255-273).  Invalid
id → 400; unknown loan → 404; already-returned loan → no-op returning the
stored record; otherwise mark the loan returned, increment the associated
book's available count, and re-fetch the loan. -/
def return_book (s : LibState) (loan_id : Id) (now : Time) :
    Except ApiError (Id × Loan) × LibState :=
  if !isValidObjectId loan_id then (.error .invalidId, s)
  else
    match findDoc s.loans loan_id with
    | none => (.error .loanNotFound, s)
    | some loan =>
      if loan.status = "returned" then (.ok (loan_id, loan), s)
      else
        let s2 : LibState :=
          { s with
            loans := updateDoc s.loans loan_id (markReturned now)
            books := updateDoc s.books loan.book_id (incAvailable now) }
        match findDoc s2.loans loan_id with
        | some l => (.ok (loan_id, l), s2)
        | none => (.error .loanNotFound, s2)

/-- One step of the overdue sweep (src/main.py line 210): a loan with status
"borrowed" whose `due_at` is strictly before `now` becomes "overdue"; every
other loan is untouched. -/
def sweepLoan (now : Time) (l : Loan) : Loan :=
  if l.status = "borrowed" ∧ l.due_at < now then { l with status := "overdue" } else l

/-- The `update_many({"status": "borrowed", "due_at": {"$lt": now}}, ...)`
sweep applied to the whole loan collection. -/
def sweepLoans (now : Time) (loans : List (Id × Loan)) : List (Id × Loan) :=
  loans.map (fun p => (p.1, sweepLoan now p.2))

/-- `GET /api/loans` (src/main.py lines 203-223): first runs the overdue
sweep, then returns the loans matching the optional status filter.  The
display-name join and sort are presentation only and are not modelled. -/
def list_loans (s : LibState) (statusFilter : Option String) (now : Time) :
    List (Id × Loan) × LibState :=
  let s2 : LibState := { s with loans := sweepLoans now s.loans }
  (s2.loans.filter (fun p =>
    match statusFilter with
    | none => true
    | some st => p.2.status = st), s2)

/-- Loan statuses counted as active by `delete_member` and `stats`
(`status ∈ {"borrowed", "overdue"}`). -/
def isActiveStatus (st : String) : Bool :=
  st == "borrowed" || st == "overdue"

/-- Number of loans of a given member with status in {borrowed, overdue}
(the `count_documents` query of src/main.py line 193). -/
def activeLoanCountForMember (loans : List (Id × Loan)) (member_id : Id) : Nat :=
  (loans.filter (fun p => p.2.member_id = member_id && isActiveStatus p.2.status)).length

/-- Number of loans of a given book with status in {borrowed, overdue}: the
outstanding copies of that book according to the loan collection. -/
def activeLoanCountForBook (loans : List (Id × Loan)) (book_id : Id) : Nat :=
  (loans.filter (fun p => p.2.book_id = book_id && isActiveStatus p.2.status)).length

/-- `DELETE /api/members/{member_id}` (src/main.py lines 188-199): invalid id
→ 400; any loan of this member with status borrowed/overdue → 400
HasActiveLoans; missing member → 404; otherwise delete. -/
def delete_member (s : LibState) (member_id : Id) : Except ApiError Unit × LibState :=
  if !isValidObjectId member_id then (.error .invalidId, s)
  else if 0 < activeLoanCountForMember s.loans member_id then
    (.error .hasActiveLoans, s)
  else
    match findDoc s.members member_id with
    | none => (.error .memberNotFound, s)
    | some _ => (.ok (), { s with members := eraseDoc s.members member_id })

/-- Result of the `$group` aggregation of src/main.py lines 280-282: one
(total, available) row when the book collection is nonempty, no rows when it
is empty. -/
def aggregateCopies (books : List (Id × Book)) : List (Int × Int) :=
  if books.isEmpty then []
  else [((books.map (fun p => p.2.total_copies)).sum,
         (books.map (fun p => p.2.copies_available)).sum)]

/-- The counters returned by `GET /api/stats`. -/
structure StatsOut where
  books : Nat
  copies : Int
  available : Int
  members : Nat
  active_loans : Nat
  overdue : Nat
deriving Repr, DecidableEq

/-- `GET /api/stats` (src/main.py lines 277-297): pure read-side counters;
the returned state is the input state because the endpoint only issues
reads (no sweep, no update). -/
def stats (s : LibState) : StatsOut × LibState :=
  let agg := aggregateCopies s.books
  ({ books := s.books.length
     copies := match agg with | [] => 0 | (t, _) :: _ => t
     available := match agg with | [] => 0 | (_, a) :: _ => a
     members := s.members.length
     active_loans := (s.loans.filter (fun p => isActiveStatus p.2.status)).length
     overdue := (s.loans.filter (fun p => p.2.status = "overdue")).length }, s)

/-- A loan status the system can ever write: "borrowed", "overdue" or
"returned". -/
def isKnownStatus (st : String) : Bool :=
  st == "borrowed" || st == "overdue" || st == "returned"

/-- Store consistency: book keys are unique (MongoDB `_id` uniqueness), every
loan status is one of the three known values, and every book satisfies
`0 ≤ copies_available` and `copies_available` plus that book's outstanding
active loans is at most `total_copies`.  This is the inductive strengthening
of the copies invariant; it holds in every state the API can build from an
empty store. -/
def Inv (s : LibState) : Prop :=
  (s.books.map Prod.fst).Nodup ∧
  (∀ p ∈ s.loans, isKnownStatus p.2.status = true) ∧
  (∀ p ∈ s.books,
    0 ≤ p.2.copies_available ∧
    p.2.copies_available + (activeLoanCountForBook s.loans p.1 : Int) ≤ p.2.total_copies)

instance (s : LibState) : Decidable (Inv s) := by
  unfold Inv; infer_instance

/-- One mutating request of the borrow/return workflow, with the wall-clock
time at which it runs and (for borrow) the id the store assigns to the new
loan document. -/
inductive Op where
  | borrow (member_id book_id : Id) (days : Int) (now : Time) (newLoanId : Id)
  | ret (loan_id : Id) (now : Time)
deriving Repr, DecidableEq

/-- The state after one request, successful or not. -/
def applyOp (s : LibState) (op : Op) : LibState :=
  match op with
  | .borrow m b d now nid => (borrow_book s m b d now nid).2
  | .ret lid now => (return_book s lid now).2

/-- The state after a sequence of borrow/return requests. -/
def applyOps (s : LibState) (ops : List Op) : LibState :=
  ops.foldl applyOp s

/-! Association-list lemmas about `findDoc`, `updateDoc` and the active-loan
counters. -/

theorem findDoc_cons (j : Id) (a : α) (rest : List (Id × α)) (i : Id) :
    findDoc ((j, a) :: rest) i = if j = i then some a else findDoc rest i := by
  by_cases h : j = i <;> simp [findDoc, List.find?_cons, h]

theorem updateDoc_cons_self (i : Id) (a : α) (rest : List (Id × α)) (f : α → α) :
    updateDoc ((i, a) :: rest) i f = (i, f a) :: rest := by
  simp [updateDoc]

theorem updateDoc_cons_ne (j i : Id) (a : α) (rest : List (Id × α)) (f : α → α)
    (h : j ≠ i) : updateDoc ((j, a) :: rest) i f = (j, a) :: updateDoc rest i f := by
  simp [updateDoc, h]

theorem findDoc_mem {coll : List (Id × α)} {i : Id} {a : α}
    (h : findDoc coll i = some a) : (i, a) ∈ coll := by
  induction coll with
  | nil => simp [findDoc] at h
  | cons q rest ih =>
    obtain ⟨j, b⟩ := q
    rw [findDoc_cons] at h
    by_cases hj : j = i
    · rw [if_pos hj] at h
      injection h with h
      subst hj; subst h
      exact List.mem_cons_self _ _
    · rw [if_neg hj] at h
      exact List.mem_cons_of_mem _ (ih h)

theorem findDoc_updateDoc_self (coll : List (Id × α)) (i : Id) (f : α → α) :
    findDoc (updateDoc coll i f) i = (findDoc coll i).map f := by
  induction coll with
  | nil => rfl
  | cons q rest ih =>
    obtain ⟨j, a⟩ := q
    by_cases h : j = i
    · subst h; simp [updateDoc, findDoc_cons]
    · simpa [updateDoc, findDoc_cons, h] using ih

theorem findDoc_updateDoc_ne (coll : List (Id × α)) (i k : Id) (f : α → α)
    (h : k ≠ i) : findDoc (updateDoc coll i f) k = findDoc coll k := by
  induction coll with
  | nil => rfl
  | cons q rest ih =>
    obtain ⟨j, a⟩ := q
    by_cases hj : j = i
    · subst hj
      simp [updateDoc, findDoc_cons, Ne.symm h]
    · simp only [updateDoc, if_neg hj, findDoc_cons]
      by_cases hk : j = k <;> simp [hk, ih]

theorem keys_updateDoc (coll : List (Id × α)) (i : Id) (f : α → α) :
    (updateDoc coll i f).map Prod.fst = coll.map Prod.fst := by
  induction coll with
  | nil => rfl
  | cons q rest ih =>
    obtain ⟨j, a⟩ := q
    by_cases hj : j = i <;> simp [updateDoc, hj, ih]

theorem mem_updateDoc {coll : List (Id × α)} {i : Id} {f : α → α} {p : Id × α}
    (hp : p ∈ updateDoc coll i f) :
    p ∈ coll ∨ ∃ a, findDoc coll i = some a ∧ p = (i, f a) := by
  induction coll with
  | nil => simp [updateDoc] at hp
  | cons q rest ih =>
    obtain ⟨j, b⟩ := q
    by_cases hj : j = i
    · subst hj
      rw [updateDoc_cons_self] at hp
      rcases List.mem_cons.mp hp with h1 | h2
      · right; exact ⟨b, by simp [findDoc_cons], h1⟩
      · left; exact List.mem_cons_of_mem _ h2
    · rw [updateDoc_cons_ne _ _ _ _ _ hj] at hp
      rcases List.mem_cons.mp hp with h1 | h2
      · left; simp [h1]
      · rcases ih h2 with h3 | ⟨a, ha, hpa⟩
        · left; exact List.mem_cons_of_mem _ h3
        · right; exact ⟨a, by simp [findDoc_cons, hj, ha], hpa⟩

theorem mem_updateDoc_nodup {coll : List (Id × α)} {i : Id} {f : α → α}
    {p : Id × α} (hnd : (coll.map Prod.fst).Nodup) (hp : p ∈ updateDoc coll i f) :
    (p ∈ coll ∧ p.1 ≠ i) ∨ ∃ a, findDoc coll i = some a ∧ p = (i, f a) := by
  induction coll with
  | nil => simp [updateDoc] at hp
  | cons q rest ih =>
    obtain ⟨j, b⟩ := q
    simp only [List.map_cons, List.nodup_cons] at hnd
    obtain ⟨hj_notin, hnd_rest⟩ := hnd
    by_cases hj : j = i
    · subst hj
      rw [updateDoc_cons_self] at hp
      rcases List.mem_cons.mp hp with h1 | h2
      · right; exact ⟨b, by simp [findDoc_cons], h1⟩
      · left
        refine ⟨List.mem_cons_of_mem _ h2, fun hpi => hj_notin ?_⟩
        exact hpi ▸ List.mem_map.mpr ⟨p, h2, rfl⟩
    · rw [updateDoc_cons_ne _ _ _ _ _ hj] at hp
      rcases List.mem_cons.mp hp with h1 | h2
      · left; exact ⟨by simp [h1], by simp [h1, hj]⟩
      · rcases ih hnd_rest h2 with ⟨h3, h4⟩ | ⟨a, ha, hpa⟩
        · left; exact ⟨List.mem_cons_of_mem _ h3, h4⟩
        · right; exact ⟨a, by simp [findDoc_cons, hj, ha], hpa⟩

theorem findDoc_append_of_none (xs ys : List (Id × α)) (i : Id)
    (h : findDoc xs i = none) : findDoc (xs ++ ys) i = findDoc ys i := by
  induction xs with
  | nil => rfl
  | cons q rest ih =>
    obtain ⟨j, b⟩ := q
    rw [findDoc_cons] at h
    by_cases hj : j = i
    · simp [hj] at h
    · rw [if_neg hj] at h
      simpa [findDoc_cons, hj] using ih h

theorem findDoc_append_fresh (xs : List (Id × α)) (i : Id) (a : α)
    (h : findDoc xs i = none) : findDoc (xs ++ [(i, a)]) i = some a := by
  rw [findDoc_append_of_none xs _ i h, findDoc_cons, if_pos rfl]

theorem findDoc_append_single_isSome (xs : List (Id × α)) (i : Id) (a : α) :
    (findDoc (xs ++ [(i, a)]) i).isSome = true := by
  induction xs with
  | nil => simp [findDoc_cons]
  | cons q rest ih =>
    obtain ⟨j, b⟩ := q
    by_cases hj : j = i <;> simp [findDoc_cons, hj, ih]

theorem activeCountBook_cons (j : Id) (l : Loan) (rest : List (Id × Loan)) (k : Id) :
    activeLoanCountForBook ((j, l) :: rest) k
      = (if l.book_id = k ∧ isActiveStatus l.status = true then 1 else 0)
        + activeLoanCountForBook rest k := by
  unfold activeLoanCountForBook
  rw [List.filter_cons]
  by_cases h1 : l.book_id = k <;> by_cases h2 : isActiveStatus l.status = true <;>
    simp [h1, h2, Nat.add_comm]

theorem activeCountBook_append_single (loans : List (Id × Loan)) (k nid : Id)
    (l : Loan) :
    activeLoanCountForBook (loans ++ [(nid, l)]) k
      = activeLoanCountForBook loans k
        + (if l.book_id = k ∧ isActiveStatus l.status = true then 1 else 0) := by
  induction loans with
  | nil =>
    rw [List.nil_append, activeCountBook_cons]
    simp [activeLoanCountForBook]
  | cons q rest ih =>
    obtain ⟨j, b⟩ := q
    rw [List.cons_append, activeCountBook_cons, activeCountBook_cons, ih]
    omega

theorem activeCountBook_updateDoc (loans : List (Id × Loan)) (lid k : Id)
    (f : Loan → Loan) (l : Loan) (hl : findDoc loans lid = some l) :
    activeLoanCountForBook (updateDoc loans lid f) k
      + (if l.book_id = k ∧ isActiveStatus l.status = true then 1 else 0)
    = activeLoanCountForBook loans k
      + (if (f l).book_id = k ∧ isActiveStatus (f l).status = true then 1 else 0) := by
  induction loans with
  | nil => simp [findDoc] at hl
  | cons q rest ih =>
    obtain ⟨j, b⟩ := q
    rw [findDoc_cons] at hl
    by_cases hj : j = lid
    · rw [if_pos hj] at hl
      injection hl with hl
      subst hl
      simp only [updateDoc, if_pos hj, activeCountBook_cons]
      omega
    · rw [if_neg hj] at hl
      have := ih hl
      simp only [updateDoc, if_neg hj, activeCountBook_cons]
      omega

/-! Pointwise facts about the overdue sweep and the status predicates. -/

theorem sweepLoan_idem (now : Time) (l : Loan) :
    sweepLoan now (sweepLoan now l) = sweepLoan now l := by
  unfold sweepLoan
  by_cases h : l.status = "borrowed" ∧ l.due_at < now <;> simp [h]

theorem sweepLoans_idem (now : Time) (loans : List (Id × Loan)) :
    sweepLoans now (sweepLoans now loans) = sweepLoans now loans := by
  induction loans with
  | nil => rfl
  | cons q rest ih =>
    simp only [sweepLoans, List.map_cons, sweepLoan_idem] at ih ⊢
    exact congrArg _ ih

theorem isActiveStatus_eq (st : String) :
    isActiveStatus st = decide (st = "borrowed" ∨ st = "overdue") := by
  by_cases h1 : st = "borrowed" <;> by_cases h2 : st = "overdue" <;>
    simp [isActiveStatus, h1, h2]

/-! Concrete fixtures used by witnesses and counterexamples.  The identifier
strings are 24 hexadecimal characters, hence valid ObjectIds. -/

def oid1 : Id := "aaaaaaaaaaaaaaaaaaaaaaaa"

def oid2 : Id := "bbbbbbbbbbbbbbbbbbbbbbbb"

def oid3 : Id := "cccccccccccccccccccccccc"

def oid4 : Id := "dddddddddddddddddddddddd"

def exBook : Book :=
  { title := "Dune", author := "Herbert", isbn := "9780441013593",
    category := none, description := none, total_copies := 2,
    copies_available := 2, tags := [], updated_at := none }

def exMember : Member :=
  { name := "Ada", email := "ada@example.com", phone := none, address := none,
    is_active := some true }

def exLoanBorrowed : Loan :=
  { member_id := oid1, book_id := oid2, borrowed_at := 0, due_at := 14,
    returned_at := none, status := "borrowed", updated_at := none }

def exLoanReturned : Loan :=
  { exLoanBorrowed with status := "returned", returned_at := some 3 }

def exState : LibState :=
  { books := [(oid2, exBook)], members := [(oid1, exMember)], loans := [] }

def exStateRet : LibState :=
  { books := [(oid2, exBook)], members := [(oid1, exMember)],
    loans := [(oid3, exLoanReturned)] }

def emptyState : LibState := { books := [], members := [], loans := [] }

/-! Reduction lemmas for the borrow and return workflows. -/

theorem borrow_book_invalid_member_none (s : LibState) (mid bid nid : Id)
    (days : Int) (now : Time) (hvm : isValidObjectId mid = true)
    (hvb : isValidObjectId bid = true) (hm : findDoc s.members mid = none) :
    borrow_book s mid bid days now nid = (.error .invalidMember, s) := by
  simp [borrow_book, hvm, hvb, hm]

theorem borrow_book_invalid_member_inactive (s : LibState) (mid bid nid : Id)
    (days : Int) (now : Time) (m : Member) (hvm : isValidObjectId mid = true)
    (hvb : isValidObjectId bid = true) (hm : findDoc s.members mid = some m)
    (hact : m.is_active.getD true = false) :
    borrow_book s mid bid days now nid = (.error .invalidMember, s) := by
  simp [borrow_book, hvm, hvb, hm, hact]

theorem borrow_book_book_not_found (s : LibState) (mid bid nid : Id)
    (days : Int) (now : Time) (m : Member) (hvm : isValidObjectId mid = true)
    (hvb : isValidObjectId bid = true) (hm : findDoc s.members mid = some m)
    (hact : m.is_active.getD true = true) (hb : findDoc s.books bid = none) :
    borrow_book s mid bid days now nid = (.error .bookNotFound, s) := by
  simp [borrow_book, hvm, hvb, hm, hact, hb]

theorem borrow_book_out_of_stock (s : LibState) (mid bid nid : Id)
    (days : Int) (now : Time) (m : Member) (b : Book)
    (hvm : isValidObjectId mid = true) (hvb : isValidObjectId bid = true)
    (hm : findDoc s.members mid = some m) (hact : m.is_active.getD true = true)
    (hb : findDoc s.books bid = some b) (havail : b.copies_available ≤ 0) :
    borrow_book s mid bid days now nid = (.error .outOfStock, s) := by
  simp [borrow_book, hvm, hvb, hm, hact, hb, havail]

theorem borrow_book_success_state (s : LibState) (mid bid nid : Id)
    (days : Int) (now : Time) (m : Member) (b : Book)
    (hvm : isValidObjectId mid = true) (hvb : isValidObjectId bid = true)
    (hm : findDoc s.members mid = some m) (hact : m.is_active.getD true = true)
    (hb : findDoc s.books bid = some b) (havail : 0 < b.copies_available) :
    (borrow_book s mid bid days now nid).2 =
      { s with loans := s.loans ++ [(nid, mkLoan mid bid now days)],
               books := updateDoc s.books bid (decAvailable now) } := by
  have hne : ¬b.copies_available ≤ 0 := not_le.mpr havail
  simp only [borrow_book, hvm, hvb, hm, hact, hb, hne, Bool.and_self,
    Bool.not_true, Bool.false_eq_true, if_false]
  split <;> rfl

theorem borrow_book_success_eq (s : LibState) (mid bid nid : Id)
    (days : Int) (now : Time) (m : Member) (b : Book)
    (hvm : isValidObjectId mid = true) (hvb : isValidObjectId bid = true)
    (hm : findDoc s.members mid = some m) (hact : m.is_active.getD true = true)
    (hb : findDoc s.books bid = some b) (havail : 0 < b.copies_available)
    (hfresh : findDoc s.loans nid = none) :
    borrow_book s mid bid days now nid =
      (.ok (nid, mkLoan mid bid now days),
       { s with loans := s.loans ++ [(nid, mkLoan mid bid now days)],
                books := updateDoc s.books bid (decAvailable now) }) := by
  have hne : ¬b.copies_available ≤ 0 := not_le.mpr havail
  have hfind := findDoc_append_fresh s.loans nid (mkLoan mid bid now days) hfresh
  simp only [borrow_book, hvm, hvb, hm, hact, hb, hne, Bool.and_self,
    Bool.not_true, Bool.false_eq_true, if_false, hfind]

theorem return_book_success_eq (s : LibState) (lid : Id) (now : Time) (l : Loan)
    (hv : isValidObjectId lid = true) (hl : findDoc s.loans lid = some l)
    (hnr : l.status ≠ "returned") :
    return_book s lid now =
      (.ok (lid, markReturned now l),
       { s with loans := updateDoc s.loans lid (markReturned now),
                books := updateDoc s.books l.book_id (incAvailable now) }) := by
  have hfind : findDoc (updateDoc s.loans lid (markReturned now)) lid
      = some (markReturned now l) := by
    rw [findDoc_updateDoc_self, hl]; rfl
  simp only [return_book, hv, hl, hnr, Bool.not_true, Bool.false_eq_true,
    if_false, hfind]

/-- C4: returning an already-returned loan is a no-op: the call answers with
the stored record unchanged and the whole store — in particular the book's
`copies_available` — is left exactly as it was. -/
theorem return_book_idempotent_on_returned (s : LibState) (lid : Id) (now : Time)
    (l : Loan) (hv : isValidObjectId lid = true)
    (hl : findDoc s.loans lid = some l) (hr : l.status = "returned") :
    return_book s lid now = (.ok (lid, l), s) := by
  simp [return_book, hv, hl, hr]

theorem return_book_idempotent_on_returned_witness :
    return_book exStateRet oid3 7 = (.ok (oid3, exLoanReturned), exStateRet) :=
  return_book_idempotent_on_returned exStateRet oid3 7 exLoanReturned
    (by decide) (by decide) (by decide)

/-- C6: the loan-listing query starts with the overdue sweep; the sweep turns
exactly the loans with status "borrowed" and `due_at < now` into "overdue",
changes nothing else, never alters an already-overdue or returned loan, and
is idempotent on the whole collection. -/
theorem list_loans_sweep_spec (s : LibState) (statusFilter : Option String)
    (now : Time) :
    (list_loans s statusFilter now).2 = { s with loans := sweepLoans now s.loans }
    ∧ (∀ l : Loan, l.status = "borrowed" → l.due_at < now →
        sweepLoan now l = { l with status := "overdue" })
    ∧ (∀ l : Loan, sweepLoan now l ≠ l →
        (sweepLoan now l).status = "overdue"
          ∧ l.status = "borrowed" ∧ l.due_at < now)
    ∧ (∀ l : Loan, l.status = "overdue" → sweepLoan now l = l)
    ∧ (∀ l : Loan, l.status = "returned" → sweepLoan now l = l)
    ∧ sweepLoans now (sweepLoans now s.loans) = sweepLoans now s.loans := by
  refine ⟨rfl, ?_, ?_, ?_, ?_, sweepLoans_idem now s.loans⟩
  · intro l h1 h2
    simp [sweepLoan, h1, h2]
  · intro l hne
    by_cases h : l.status = "borrowed" ∧ l.due_at < now
    · refine ⟨?_, h.1, h.2⟩
      simp [sweepLoan, h]
    · exact absurd (by simp [sweepLoan, h]) hne
  · intro l h
    simp [sweepLoan, h]
  · intro l h
    simp [sweepLoan, h]

theorem list_loans_sweep_spec_witness :
    sweepLoan 20 exLoanBorrowed = { exLoanBorrowed with status := "overdue" } :=
  (list_loans_sweep_spec exStateRet none 20).2.1 exLoanBorrowed
    (by decide) (by decide)

/-- C8: the stats endpoint mutates nothing (the state it leaves behind is its
input state, so no overdue sweep happens) and reports the book count, the two
copy sums (0 when there are no books), the member count, the number of loans
with status borrowed or overdue, and the number of loans with status
overdue. -/
theorem stats_read_only_spec (s : LibState) :
    (stats s).2 = s
    ∧ (stats s).1.books = s.books.length
    ∧ (stats s).1.copies = (s.books.map (fun p => p.2.total_copies)).sum
    ∧ (stats s).1.available = (s.books.map (fun p => p.2.copies_available)).sum
    ∧ (s.books = [] → (stats s).1.copies = 0 ∧ (stats s).1.available = 0)
    ∧ (stats s).1.members = s.members.length
    ∧ (stats s).1.active_loans
        = (s.loans.filter
            (fun p => p.2.status = "borrowed" ∨ p.2.status = "overdue")).length
    ∧ (stats s).1.overdue
        = (s.loans.filter (fun p => p.2.status = "overdue")).length := by
  refine ⟨rfl, rfl, ?_, ?_, ?_, rfl, ?_, rfl⟩
  · by_cases h : s.books.isEmpty
    · simp [stats, aggregateCopies, h, List.isEmpty_iff.mp h]
    · simp [stats, aggregateCopies, h]
  · by_cases h : s.books.isEmpty
    · simp [stats, aggregateCopies, h, List.isEmpty_iff.mp h]
    · simp [stats, aggregateCopies, h]
  · intro h
    simp [stats, aggregateCopies, h]
  · show (s.loans.filter (fun p => isActiveStatus p.2.status)).length = _
    rw [List.filter_congr (fun p _ => isActiveStatus_eq p.2.status)]

theorem stats_read_only_spec_witness :
    (stats emptyState).1.copies = 0 ∧ (stats emptyState).1.available = 0 :=
  (stats_read_only_spec emptyState).2.2.2.2.1 rfl

/-- C7: member deletion (with a well-formed id) answers HasActiveLoans exactly
when the member still has a loan with status borrowed or overdue, and once
every such loan is returned — the active count is zero — deleting an existing
member succeeds and removes the member document. -/
theorem delete_member_guard_spec (s : LibState) (mid : Id)
    (hv : isValidObjectId mid = true) :
    ((delete_member s mid).1 = .error .hasActiveLoans
        ↔ activeLoanCountForMember s.loans mid ≠ 0)
    ∧ (activeLoanCountForMember s.loans mid = 0 → findDoc s.members mid ≠ none →
        (delete_member s mid).1 = .ok ()
          ∧ (delete_member s mid).2
              = { s with members := eraseDoc s.members mid }) := by
  by_cases h : 0 < activeLoanCountForMember s.loans mid
  · constructor
    · simp [delete_member, hv, h]
      omega
    · intro h0
      omega
  · have h0 : activeLoanCountForMember s.loans mid = 0 := by omega
    constructor
    · cases hm : findDoc s.members mid <;> simp [delete_member, hv, h, hm, h0]
    · intro _ hm
      cases hmm : findDoc s.members mid with
      | none => exact absurd hmm hm
      | some m => exact ⟨by simp [delete_member, hv, h, hmm],
          by simp [delete_member, hv, h, hmm]⟩

theorem delete_member_guard_spec_witness :
    (delete_member exState oid1).1 = Except.ok ()
      ∧ (delete_member exState oid1).2
          = { exState with members := eraseDoc exState.members oid1 } :=
  (delete_member_guard_spec exState oid1 (by decide)).2 (by decide) (by decide)

/-- C2: with well-formed ids, an existing active member, an existing book
with a copy available, a request duration in the 1–60 bound, and a fresh
loan id, borrowing succeeds, creates exactly one loan record with status
"borrowed", `borrowed_at = now` and `due_at = now + days`, and decrements
that book's `copies_available` by exactly one, touching no other book. -/
theorem borrow_book_success_spec (s : LibState) (mid bid nid : Id)
    (days : Int) (now : Time) (m : Member) (b : Book)
    (hvm : isValidObjectId mid = true) (hvb : isValidObjectId bid = true)
    (hdays : validBorrowDays days = true)
    (hm : findDoc s.members mid = some m) (hact : m.is_active.getD true = true)
    (hb : findDoc s.books bid = some b) (havail : 0 < b.copies_available)
    (hfresh : findDoc s.loans nid = none) :
    borrow_book s mid bid days now nid =
      (.ok (nid, mkLoan mid bid now days),
       { s with loans := s.loans ++ [(nid, mkLoan mid bid now days)],
                books := updateDoc s.books bid (decAvailable now) })
    ∧ (mkLoan mid bid now days).status = "borrowed"
    ∧ (mkLoan mid bid now days).borrowed_at = now
    ∧ (mkLoan mid bid now days).due_at = now + days
    ∧ (borrow_book s mid bid days now nid).2.loans.length = s.loans.length + 1
    ∧ findDoc (borrow_book s mid bid days now nid).2.loans nid
        = some (mkLoan mid bid now days)
    ∧ findDoc (borrow_book s mid bid days now nid).2.books bid
        = some { b with copies_available := b.copies_available - 1,
                        updated_at := some now }
    ∧ (∀ k, k ≠ bid →
        findDoc (borrow_book s mid bid days now nid).2.books k
          = findDoc s.books k) := by
  have heq := borrow_book_success_eq s mid bid nid days now m b
    hvm hvb hm hact hb havail hfresh
  refine ⟨heq, rfl, rfl, rfl, ?_, ?_, ?_, ?_⟩
  · rw [heq]; simp
  · rw [heq]
    exact findDoc_append_fresh s.loans nid (mkLoan mid bid now days) hfresh
  · rw [heq]
    show findDoc (updateDoc s.books bid (decAvailable now)) bid = _
    rw [findDoc_updateDoc_self, hb]; rfl
  · intro k hk
    rw [heq]
    exact findDoc_updateDoc_ne s.books bid k (decAvailable now) hk

theorem borrow_book_success_spec_witness :
    borrow_book exState oid1 oid2 14 0 oid3 =
      (.ok (oid3, mkLoan oid1 oid2 0 14),
       { exState with loans := exState.loans ++ [(oid3, mkLoan oid1 oid2 0 14)],
                      books := updateDoc exState.books oid2 (decAvailable 0) }) :=
  (borrow_book_success_spec exState oid1 oid2 oid3 14 0 exMember exBook
    (by decide) (by decide) (by decide) (by decide) (by decide) (by decide)
    (by decide) (by decide)).1

/-- C3: with well-formed ids, borrowing fails with InvalidMember when the
member is missing or its `is_active` field is false, with BookNotFound when
the member check passes but the book is missing, and with OutOfStock when
the book exists with no positive `copies_available`; in particular, after
the last copy of a book is borrowed, a further borrow attempt for that book
by a valid active member fails with OutOfStock. -/
theorem borrow_book_failure_spec (s : LibState) (mid bid nid : Id)
    (days : Int) (now : Time)
    (hvm : isValidObjectId mid = true) (hvb : isValidObjectId bid = true) :
    ((findDoc s.members mid = none
        ∨ ∃ m, findDoc s.members mid = some m ∧ m.is_active.getD true = false) →
      borrow_book s mid bid days now nid = (.error .invalidMember, s))
    ∧ (∀ m, findDoc s.members mid = some m → m.is_active.getD true = true →
        findDoc s.books bid = none →
        borrow_book s mid bid days now nid = (.error .bookNotFound, s))
    ∧ (∀ m b, findDoc s.members mid = some m → m.is_active.getD true = true →
        findDoc s.books bid = some b → b.copies_available ≤ 0 →
        borrow_book s mid bid days now nid = (.error .outOfStock, s))
    ∧ (∀ m b, findDoc s.members mid = some m → m.is_active.getD true = true →
        findDoc s.books bid = some b → b.copies_available = 1 →
        ∀ mid2 nid2 days2 now2 m2, isValidObjectId mid2 = true →
          findDoc (borrow_book s mid bid days now nid).2.members mid2 = some m2 →
          m2.is_active.getD true = true →
          (borrow_book (borrow_book s mid bid days now nid).2 mid2 bid days2
              now2 nid2).1 = .error .outOfStock) := by
  refine ⟨?_, ?_, ?_, ?_⟩
  · rintro (hm | ⟨m, hm, hact⟩)
    · exact borrow_book_invalid_member_none s mid bid nid days now hvm hvb hm
    · exact borrow_book_invalid_member_inactive s mid bid nid days now m
        hvm hvb hm hact
  · intro m hm hact hb
    exact borrow_book_book_not_found s mid bid nid days now m hvm hvb hm hact hb
  · intro m b hm hact hb havail
    exact borrow_book_out_of_stock s mid bid nid days now m b
      hvm hvb hm hact hb havail
  · intro m b hm hact hb h1 mid2 nid2 days2 now2 m2 hvm2 hm2 hact2
    have hstate := borrow_book_success_state s mid bid nid days now m b
      hvm hvb hm hact hb (by omega)
    have hb2 : findDoc (borrow_book s mid bid days now nid).2.books bid
        = some (decAvailable now b) := by
      rw [hstate]
      show findDoc (updateDoc s.books bid (decAvailable now)) bid = _
      rw [findDoc_updateDoc_self, hb]; rfl
    have hz : (decAvailable now b).copies_available ≤ 0 := by
      simp [decAvailable, h1]
    rw [borrow_book_out_of_stock _ mid2 bid nid2 days2 now2 m2
      (decAvailable now b) hvm2 hvb hm2 hact2 hb2 hz]

def exBook1 : Book := { exBook with copies_available := 1 }

def exStateOne : LibState :=
  { books := [(oid2, exBook1)], members := [(oid1, exMember)], loans := [] }

theorem borrow_book_failure_spec_witness :
    (borrow_book (borrow_book exStateOne oid1 oid2 14 0 oid3).2
        oid1 oid2 7 1 oid4).1 = Except.error ApiError.outOfStock :=
  (borrow_book_failure_spec exStateOne oid1 oid2 oid3 14 0
      (by decide) (by decide)).2.2.2
    exMember exBook1 (by decide) (by decide) (by decide) (by decide)
    oid1 oid4 7 1 exMember (by decide) (by decide) (by decide)

/-- C5: returning a loan that exists with status borrowed or overdue marks it
returned with `returned_at = now` and increments the associated book's
`copies_available` by exactly one — unconditionally, with no cap at
`total_copies` — while returning with an unknown loan id fails with
NotFound. -/
theorem return_book_spec (s : LibState) (lid : Id) (now : Time) :
    (isValidObjectId lid = true → findDoc s.loans lid = none →
      return_book s lid now = (.error .loanNotFound, s))
    ∧ (∀ l b, isValidObjectId lid = true → findDoc s.loans lid = some l →
        (l.status = "borrowed" ∨ l.status = "overdue") →
        findDoc s.books l.book_id = some b →
        (return_book s lid now).1 = .ok (lid, markReturned now l)
        ∧ (markReturned now l).status = "returned"
        ∧ (markReturned now l).returned_at = some now
        ∧ findDoc (return_book s lid now).2.loans lid = some (markReturned now l)
        ∧ findDoc (return_book s lid now).2.books l.book_id
            = some { b with copies_available := b.copies_available + 1,
                            updated_at := some now }
        ∧ (∀ k, k ≠ l.book_id →
            findDoc (return_book s lid now).2.books k = findDoc s.books k)) := by
  constructor
  · intro hv hl
    simp [return_book, hv, hl]
  · intro l b hv hl hst hb
    have hnr : l.status ≠ "returned" := by
      rcases hst with h | h <;> simp [h]
    have heq := return_book_success_eq s lid now l hv hl hnr
    refine ⟨by rw [heq], rfl, rfl, ?_, ?_, ?_⟩
    · rw [heq]
      show findDoc (updateDoc s.loans lid (markReturned now)) lid = _
      rw [findDoc_updateDoc_self, hl]; rfl
    · rw [heq]
      show findDoc (updateDoc s.books l.book_id (incAvailable now)) l.book_id = _
      rw [findDoc_updateDoc_self, hb]; rfl
    · intro k hk
      rw [heq]
      exact findDoc_updateDoc_ne s.books l.book_id k (incAvailable now) hk

def exStateLoan : LibState :=
  { books := [(oid2, exBook)], members := [(oid1, exMember)],
    loans := [(oid3, exLoanBorrowed)] }

theorem return_book_spec_witness :
    findDoc (return_book exStateLoan oid3 5).2.books oid2
      = some { exBook with copies_available := exBook.copies_available + 1,
                           updated_at := some 5 } :=
  ((return_book_spec exStateLoan oid3 5).2 exLoanBorrowed exBook
    (by decide) (by decide) (Or.inl (by decide)) (by decide)).2.2.2.2.1

/-- C9: a member document that lacks the `is_active` field entirely is
treated as active: with such a member, a valid book id and stock available,
the borrow does not fail with InvalidMember but succeeds. -/
theorem borrow_book_missing_is_active_ok (s : LibState) (mid bid nid : Id)
    (days : Int) (now : Time) (m : Member) (b : Book)
    (hvm : isValidObjectId mid = true) (hvb : isValidObjectId bid = true)
    (hm : findDoc s.members mid = some m) (hnone : m.is_active = none)
    (hb : findDoc s.books bid = some b) (havail : 0 < b.copies_available) :
    (borrow_book s mid bid days now nid).1 ≠ .error .invalidMember
    ∧ ∃ r, (borrow_book s mid bid days now nid).1 = .ok r := by
  have hact : m.is_active.getD true = true := by rw [hnone]; rfl
  have hne : ¬b.copies_available ≤ 0 := not_le.mpr havail
  have hok : ∃ r, (borrow_book s mid bid days now nid).1 = .ok r := by
    simp only [borrow_book, hvm, hvb, hm, hact, hb, hne, Bool.and_self,
      Bool.not_true, Bool.false_eq_true, if_false]
    cases hfind : findDoc (s.loans ++ [(nid, mkLoan mid bid now days)]) nid with
    | none =>
      have := findDoc_append_single_isSome s.loans nid (mkLoan mid bid now days)
      rw [hfind] at this
      simp at this
    | some l => exact ⟨(nid, l), rfl⟩
  obtain ⟨r, hr⟩ := hok
  exact ⟨by rw [hr]; simp, r, hr⟩

def exMemberNoFlag : Member := { exMember with is_active := none }

def exStateNoFlag : LibState :=
  { books := [(oid2, exBook)], members := [(oid1, exMemberNoFlag)], loans := [] }

theorem borrow_book_missing_is_active_ok_witness :
    (borrow_book exStateNoFlag oid1 oid2 14 0 oid3).1
        ≠ Except.error ApiError.invalidMember
    ∧ ∃ r, (borrow_book exStateNoFlag oid1 oid2 14 0 oid3).1 = Except.ok r :=
  borrow_book_missing_is_active_ok exStateNoFlag oid1 oid2 oid3 14 0
    exMemberNoFlag exBook (by decide) (by decide) (by decide) (by decide)
    (by decide) (by decide)

/-- C10: the borrow operation is atomic on failure — whenever it answers with
any error (malformed id, missing or inactive member, missing book, or no
stock), the store is exactly the input store: no loan was created and no
book was modified. -/
theorem borrow_book_atomic_on_failure (s : LibState) (mid bid nid : Id)
    (days : Int) (now : Time) (e : ApiError)
    (h : (borrow_book s mid bid days now nid).1 = .error e) :
    (borrow_book s mid bid days now nid).2 = s := by
  cases hv : isValidObjectId mid && isValidObjectId bid with
  | false => simp [borrow_book, hv]
  | true =>
    cases hm : findDoc s.members mid with
    | none => simp [borrow_book, hv, hm]
    | some m =>
      cases hact : m.is_active.getD true with
      | false => simp [borrow_book, hv, hm, hact]
      | true =>
        cases hb : findDoc s.books bid with
        | none => simp [borrow_book, hv, hm, hact, hb]
        | some b =>
          by_cases havail : b.copies_available ≤ 0
          · simp [borrow_book, hv, hm, hact, hb, havail]
          · exfalso
            revert h
            simp only [borrow_book, hv, hm, hact, hb, havail, Bool.and_self,
              Bool.not_true, Bool.false_eq_true, if_false]
            cases hfind : findDoc (s.loans ++ [(nid, mkLoan mid bid now days)])
                nid with
            | none =>
              have := findDoc_append_single_isSome s.loans nid
                (mkLoan mid bid now days)
              rw [hfind] at this
              simp at this
            | some l => simp

theorem borrow_book_atomic_on_failure_witness :
    (borrow_book exState "zz" oid2 14 0 oid3).2 = exState :=
  borrow_book_atomic_on_failure exState "zz" oid2 oid3 14 0
    ApiError.invalidId (by rfl)

/-! Preservation of the store-consistency invariant `Inv` under the borrow
and return workflows. -/

theorem inv_borrow_state (s : LibState) (mid bid nid : Id) (days : Int)
    (now : Time) (b : Book) (hb : findDoc s.books bid = some b)
    (havail : 0 < b.copies_available) (hInv : Inv s) :
    Inv { s with loans := s.loans ++ [(nid, mkLoan mid bid now days)],
                 books := updateDoc s.books bid (decAvailable now) } := by
  obtain ⟨hnd, hks, hbk⟩ := hInv
  refine ⟨by simpa [keys_updateDoc] using hnd, ?_, ?_⟩
  · intro p hp
    rcases List.mem_append.mp hp with h | h
    · exact hks p h
    · simp only [List.mem_singleton] at h
      subst h
      rfl
  · intro p hp
    rcases mem_updateDoc_nodup hnd hp with ⟨hmem, hne⟩ | ⟨a, ha, hpa⟩
    · have hold := hbk p hmem
      have hcnt : activeLoanCountForBook
            (s.loans ++ [(nid, mkLoan mid bid now days)]) p.1
          = activeLoanCountForBook s.loans p.1 := by
        rw [activeCountBook_append_single]
        have hno : ¬((mkLoan mid bid now days).book_id = p.1
            ∧ isActiveStatus (mkLoan mid bid now days).status = true) := by
          intro hcon
          exact hne (hcon.1 ▸ rfl)
        simp [hno]
      simpa [hcnt] using hold
    · have hab : a = b := by rw [ha] at hb; injection hb
      subst hab hpa
      have hold := hbk (bid, a) (findDoc_mem ha)
      have hcnt : activeLoanCountForBook
            (s.loans ++ [(nid, mkLoan mid bid now days)]) bid
          = activeLoanCountForBook s.loans bid + 1 := by
        rw [activeCountBook_append_single]
        simp [mkLoan, isActiveStatus]
      simp only [hcnt, decAvailable] at hold ⊢
      push_cast at hold ⊢
      constructor <;> omega

theorem inv_return_state (s : LibState) (lid : Id) (now : Time) (l : Loan)
    (hl : findDoc s.loans lid = some l) (hnr : l.status ≠ "returned")
    (hInv : Inv s) :
    Inv { s with loans := updateDoc s.loans lid (markReturned now),
                 books := updateDoc s.books l.book_id (incAvailable now) } := by
  obtain ⟨hnd, hks, hbk⟩ := hInv
  have hlmem : (lid, l) ∈ s.loans := findDoc_mem hl
  have hlact : isActiveStatus l.status = true := by
    have hkn := hks (lid, l) hlmem
    simp only [isKnownStatus, Bool.or_eq_true, beq_iff_eq] at hkn
    rcases hkn with (h | h) | h
    · simp [isActiveStatus, h]
    · simp [isActiveStatus, h]
    · exact absurd h hnr
  refine ⟨by simpa [keys_updateDoc] using hnd, ?_, ?_⟩
  · intro p hp
    rcases mem_updateDoc hp with h | ⟨a, ha, hpa⟩
    · exact hks p h
    · subst hpa
      rfl
  · intro p hp
    rcases mem_updateDoc_nodup hnd hp with ⟨hmem, hne⟩ | ⟨a, ha, hpa⟩
    · have hold := hbk p hmem
      have hcnt := activeCountBook_updateDoc s.loans lid p.1
        (markReturned now) l hl
      have h1 : ¬(l.book_id = p.1 ∧ isActiveStatus l.status = true) :=
        fun hcon => hne (hcon.1 ▸ rfl)
      have h2 : ¬((markReturned now l).book_id = p.1
          ∧ isActiveStatus (markReturned now l).status = true) :=
        fun hcon => hne (hcon.1 ▸ rfl)
      simp only [h1, h2, if_false, Nat.add_zero] at hcnt
      simpa [hcnt] using hold
    · subst hpa
      have hold := hbk (l.book_id, a) (findDoc_mem ha)
      have hcnt := activeCountBook_updateDoc s.loans lid l.book_id
        (markReturned now) l hl
      have hor : l.status = "borrowed" ∨ l.status = "overdue" := by
        simpa [isActiveStatus] using hlact
      simp only [markReturned] at hcnt
      simp [isActiveStatus, hor] at hcnt
      simp only [incAvailable] at hold ⊢
      constructor <;> omega

theorem inv_applyOp (s : LibState) (op : Op) (hInv : Inv s) :
    Inv (applyOp s op) := by
  cases op with
  | borrow mid bid days now nid =>
    show Inv (borrow_book s mid bid days now nid).2
    cases hv : isValidObjectId mid && isValidObjectId bid with
    | false => simpa [borrow_book, hv] using hInv
    | true =>
      obtain ⟨hvm, hvb⟩ := Bool.and_eq_true_iff.mp hv
      cases hm : findDoc s.members mid with
      | none => simpa [borrow_book, hv, hm] using hInv
      | some m =>
        cases hact : m.is_active.getD true with
        | false => simpa [borrow_book, hv, hm, hact] using hInv
        | true =>
          cases hb : findDoc s.books bid with
          | none => simpa [borrow_book, hv, hm, hact, hb] using hInv
          | some b =>
            by_cases havail : b.copies_available ≤ 0
            · simpa [borrow_book, hv, hm, hact, hb, havail] using hInv
            · rw [borrow_book_success_state s mid bid nid days now m b
                hvm hvb hm hact hb (not_le.mp havail)]
              exact inv_borrow_state s mid bid nid days now b hb
                (not_le.mp havail) ⟨hInv.1, hInv.2.1, hInv.2.2⟩
  | ret lid now =>
    show Inv (return_book s lid now).2
    cases hv : isValidObjectId lid with
    | false => simpa [return_book, hv] using hInv
    | true =>
      cases hl : findDoc s.loans lid with
      | none => simpa [return_book, hv, hl] using hInv
      | some l =>
        by_cases hr : l.status = "returned"
        · simpa [return_book, hv, hl, hr] using hInv
        · rw [return_book_success_eq s lid now l hv hl hr]
          exact inv_return_state s lid now l hl hr hInv

theorem inv_applyOps (s : LibState) (ops : List Op) (hInv : Inv s) :
    Inv (applyOps s ops) := by
  induction ops generalizing s with
  | nil => exact hInv
  | cons op rest ih => exact ih (applyOp s op) (inv_applyOp s op hInv)

/-- C1 (amended): starting from a consistent store — unique book ids, loan
statuses among the three known values, and each book satisfying
`0 ≤ copies_available` and `copies_available` plus its outstanding active
loans at most `total_copies` — any sequence of borrow and return requests,
successful or failed, preserves consistency, and in particular every book
still satisfies `0 ≤ copies_available ≤ total_copies` afterwards. -/
theorem copies_invariant_preserved (s : LibState) (ops : List Op)
    (hInv : Inv s) :
    Inv (applyOps s ops)
    ∧ ∀ p ∈ (applyOps s ops).books,
        0 ≤ p.2.copies_available ∧ p.2.copies_available ≤ p.2.total_copies := by
  have main := inv_applyOps s ops hInv
  refine ⟨main, fun p hp => ?_⟩
  have h := main.2.2 p hp
  have hcast : (0 : Int) ≤ (activeLoanCountForBook (applyOps s ops).loans p.1 : Int) :=
    Int.ofNat_nonneg _
  exact ⟨h.1, by omega⟩

theorem copies_invariant_preserved_witness :
    Inv (applyOps exStateOne [Op.borrow oid1 oid2 14 0 oid3, Op.ret oid3 3])
    ∧ ∀ p ∈ (applyOps exStateOne
        [Op.borrow oid1 oid2 14 0 oid3, Op.ret oid3 3]).books,
        0 ≤ p.2.copies_available ∧ p.2.copies_available ≤ p.2.total_copies :=
  copies_invariant_preserved exStateOne
    [Op.borrow oid1 oid2 14 0 oid3, Op.ret oid3 3] (by decide)

def cexBookFull : Book := { exBook with total_copies := 1, copies_available := 1 }

def cexLoanStray : Loan :=
  { member_id := oid1, book_id := oid2, borrowed_at := 0, due_at := 10,
    returned_at := none, status := "borrowed", updated_at := none }

/-- A state in which every book satisfies `0 ≤ copies_available ≤
total_copies` but one outstanding borrowed loan is not backed by a missing
copy: the book shows 1 of 1 copies available while a borrowed loan for it
exists. -/
def cexState : LibState :=
  { books := [(oid2, cexBookFull)], members := [],
    loans := [(oid4, cexLoanStray)] }

/-- C1 counterexample: from a state satisfying only the claimed precondition
`0 ≤ copies_available ≤ total_copies`, a single successful return operation
drives `copies_available` above `total_copies` (the source performs an
unconditional `$inc` with no cap), so the claim as stated fails. -/
theorem copies_invariant_literal_counterexample :
    (∀ p ∈ cexState.books,
        0 ≤ p.2.copies_available ∧ p.2.copies_available ≤ p.2.total_copies)
    ∧ (return_book cexState oid4 5).1.isOk = true
    ∧ ¬(∀ p ∈ (applyOps cexState [Op.ret oid4 5]).books,
        0 ≤ p.2.copies_available ∧ p.2.copies_available ≤ p.2.total_copies) := by
  decide

end Library
